import Mathlib

/-!
Gruesome Killer flag plugin (`gruesomeKillerFlag.cpp`).

A shallow embedding of the plugin's three routines, `fireShot`, `detonate`
and `GruesomeKillerFlag::Event`, over an explicit model of the host
(`bzfsAPI.h`) state.

Numbers.  The plugin computes with `float`/`double`.  The embedding is
generic in an ordered field `R` that stands for these numbers, with exact
arithmetic; `cos`, `sin` and `sqrt` of `<math.h>` are taken as a parameter
(`Libm R`).  The theorems about magnitudes instantiate `R` with the reals
and `Libm` with `Real.cos`, `Real.sin`, `Real.sqrt`; rounding of machine
floats is outside the embedding.  `int` values are `Int`.

Host.  The host is external to the repository.  Its state is the record
`Host R`: the configuration it answers queries from, the log of spawn
requests, the per-identifier metadata store and the log of released player
records.  A spawn returns a fresh identifier from a counter; integer
metadata is stored and read back as the `int` that was written.

Division.  The two angle computations divide by a ring count.  The
embedding checks the divisor: `none` as a result of `detonate` or `Event`
stands for a division by zero.
-/

namespace GruesomeKiller

/-! ## Data model -/

/-- A `float[3]` triple. -/
structure Vec3 (R : Type) where
  x : R
  y : R
  z : R

/-- The `<math.h>` functions the plugin calls. -/
structure Libm (R : Type) where
  cos : R → R
  sin : R → R
  sqrt : R → R

/-- A metadata value attached to a shot: a string or an integer. -/
inductive MetaValue where
  | str (s : String)
  | int (i : Int)
deriving DecidableEq, Repr

/-- One spawn request received by the host through `bz_fireServerShot`,
together with the identifier the host returned for it. -/
structure Shot (R : Type) where
  guid : Nat
  shotType : String
  pos : Vec3 R
  vel : Vec3 R
  team : Int

/-- The fields of `bz_PlayerUpdateState` the plugin reads. -/
structure PlayerUpdateState (R : Type) where
  pos : Vec3 R
  rotation : R

/-- The field of `bz_BasePlayerRecord` the plugin reads. -/
structure BasePlayerRecord (R : Type) where
  lastKnownState : PlayerUpdateState R

/-- The fields of `bz_PlayerDieEventData_V2` the plugin reads or writes. -/
structure PlayerDieEventData (R : Type) where
  playerID : Int
  killerID : Int
  killerTeam : Int
  flagKilledWith : String
  flagHeldWhenKilled : Int
  shotID : Int
  state : PlayerUpdateState R

/-- An event delivered to the plugin: a player death, or an event of any
other `eventType`. -/
inductive EventData (R : Type) where
  | playerDie (data : PlayerDieEventData R)
  | other (eventType : Nat)

/-- State of the host as seen through the API calls of the plugin. -/
structure Host (R : Type) where
  /-- answers of `bz_getBZDBInt` -/
  bzdbInt : String → Int
  /-- answers of `bz_getBZDBDouble` -/
  bzdbDouble : String → R
  /-- answers of `bz_getPlayerTeam` -/
  playerTeam : Int → Int
  /-- answers of `bz_getPlayerByIndex`; `none` is the null pointer -/
  playerByIndex : Int → Option (BasePlayerRecord R)
  /-- answers of `bz_getShotGUID` -/
  shotGUID : Int → Int → Nat
  /-- answers of `bz_getFlagName` -/
  flagName : Int → String
  /-- identifier the next spawn returns -/
  nextGUID : Nat
  /-- spawn requests received so far, oldest first -/
  shots : List (Shot R)
  /-- metadata store, per shot identifier and key -/
  shotMeta : Nat → String → Option MetaValue
  /-- arguments of the `bz_freePlayerRecord` calls so far, oldest first -/
  freed : List (Option (BasePlayerRecord R))

/-! ## Host API -/

section HostAPI
variable {R : Type}

def bz_getBZDBInt (h : Host R) (name : String) : Int := h.bzdbInt name

def bz_getBZDBDouble (h : Host R) (name : String) : R := h.bzdbDouble name

def bz_getPlayerTeam (h : Host R) (playerID : Int) : Int := h.playerTeam playerID

def bz_getPlayerByIndex (h : Host R) (index : Int) : Option (BasePlayerRecord R) :=
  h.playerByIndex index

def bz_getShotGUID (h : Host R) (fromPlayer shotID : Int) : Nat := h.shotGUID fromPlayer shotID

def bz_getFlagName (h : Host R) (flag : Int) : String := h.flagName flag

/-- Spawn of a server-owned shot: the request is logged and a fresh
identifier is returned. -/
def bz_fireServerShot (h : Host R) (shotType : String) (origin vector : Vec3 R) (color : Int) :
    Nat × Host R :=
  (h.nextGUID,
    { h with
      nextGUID := h.nextGUID + 1
      shots := h.shots ++ [⟨h.nextGUID, shotType, origin, vector, color⟩] })

/-- String overload of `bz_setShotMetaData`. -/
def bz_setShotMetaDataS (h : Host R) (shot : Nat) (name value : String) : Host R :=
  { h with
    shotMeta := fun g k => if g = shot ∧ k = name then some (.str value) else h.shotMeta g k }

/-- Integer overload of `bz_setShotMetaData`. -/
def bz_setShotMetaDataI (h : Host R) (shot : Nat) (name : String) (value : Int) : Host R :=
  { h with
    shotMeta := fun g k => if g = shot ∧ k = name then some (.int value) else h.shotMeta g k }

def bz_shotHasMetaData (h : Host R) (shot : Nat) (name : String) : Bool :=
  (h.shotMeta shot name).isSome

/-- String query; an entry that is absent or not a string reads as `""`. -/
def bz_getShotMetaDataS (h : Host R) (shot : Nat) (name : String) : String :=
  match h.shotMeta shot name with
  | some (.str s) => s
  | _ => ""

/-- Integer query; an entry that is absent or not an integer reads as `0`. -/
def bz_getShotMetaDataI (h : Host R) (shot : Nat) (name : String) : Int :=
  match h.shotMeta shot name with
  | some (.int i) => i
  | _ => 0

def bz_freePlayerRecord (h : Host R) (playerRecord : Option (BasePlayerRecord R)) : Host R :=
  { h with freed := h.freed ++ [playerRecord] }

end HostAPI

/-! ## The plugin -/

section Plugin
variable {R : Type} [LinearOrderedField R] [FloorRing R]

/-- Conversion of a floating value to `int`: truncation toward zero. -/
def toInt (x : R) : Int := if 0 ≤ x then ⌊x⌋ else ⌈x⌉

/-- The velocity `fireShot` computes (lines 57 and 60-65). -/
def shotVel (m : Libm R) (rotation : R) (up : Bool) : Vec3 R :=
  let vel : Vec3 R := ⟨m.cos rotation, m.sin rotation, 0⟩
  if up then
    let vel : Vec3 R := { vel with z := m.sqrt 2 / 2.0 }
    let vel : Vec3 R := { vel with x := vel.x * (m.sqrt 2 / 2.0) }
    { vel with y := vel.y * (m.sqrt 2 / 2.0) }
  else vel

/-- The routine `fireShot` (lines 55-71). -/
def fireShot (m : Libm R) (h : Host R) (playerPos : Vec3 R) (killerID : Int) (rotation : R)
    (up : Bool) : Host R :=
  let vel := shotVel m rotation up
  let pos : Vec3 R := ⟨playerPos.x, playerPos.y, bz_getBZDBDouble h "_muzzleHeight"⟩
  let (shotGUID, h) := bz_fireServerShot h "GK" pos vel (bz_getPlayerTeam h killerID)
  let h := bz_setShotMetaDataS h shotGUID "type" "GK"
  bz_setShotMetaDataI h shotGUID "owner" killerID

/-- The angle expression of both rings, `i*((2*3.142)/count) + rotation`. -/
def ringAngleValue (count : Int) (rotation : R) (i : Int) : R :=
  (i : R) * ((2 * 3.142) / (count : R)) + rotation

/-- The angle expression with its division checked: `none` stands for a
division by zero. -/
def ringAngle (count : Int) (rotation : R) (i : Int) : Option R :=
  if count = 0 then none else some (ringAngleValue count rotation i)

/-- The ground-level loop of `detonate` (lines 90-93), entered with loop
variable `i`; the bound is read from the host at every test and at every
angle computation.  `none` stands for a division by zero. -/
def groundLoop (m : Libm R) (h : Host R) (playerPos : Vec3 R) (rotation : R) (killerID : Int)
    (i : Int) : Option (Host R) :=
  if i < bz_getBZDBInt h "_gruesomeKillerBlossomCount" then
    match ringAngle (bz_getBZDBInt h "_gruesomeKillerBlossomCount") rotation i with
    | none => none
    | some angle =>
      groundLoop m (fireShot m h playerPos killerID angle false) playerPos rotation killerID (i + 1)
  else some h
termination_by (bz_getBZDBInt h "_gruesomeKillerBlossomCount" - i).toNat
decreasing_by
  simp only [bz_getBZDBInt, fireShot, bz_fireServerShot, bz_setShotMetaDataS,
    bz_setShotMetaDataI] at *
  omega

/-- The 45 degree loop of `detonate` (lines 97-100), entered with loop
variable `i`.  `none` stands for a division by zero. -/
def upLoop (m : Libm R) (h : Host R) (playerPos : Vec3 R) (rotation : R) (killerID : Int)
    (upCount : Int) (i : Int) : Option (Host R) :=
  if i < upCount then
    match ringAngle upCount rotation i with
    | none => none
    | some angle =>
      upLoop m (fireShot m h playerPos killerID angle true) playerPos rotation killerID upCount
        (i + 1)
  else some h
termination_by (upCount - i).toNat
decreasing_by omega

/-- The value of `upCount` (line 96) for a given value of the tunable. -/
def upCountOf (m : Libm R) (blossomCount : Int) : Int :=
  toInt ((blossomCount : R) / m.sqrt 2)

/-- The routine `detonate` (lines 81-109).  `none` stands for a division by zero. -/
def detonate (m : Libm R) (h : Host R) (playerPos : Vec3 R) (rotation : R) (killerID : Int) :
    Option (Host R) :=
  -- Shock wave
  let vel : Vec3 R := ⟨0, 0, 0⟩
  let (shotGUID, h) := bz_fireServerShot h "SW" playerPos vel (bz_getPlayerTeam h killerID)
  let h := bz_setShotMetaDataS h shotGUID "type" "GK"
  let h := bz_setShotMetaDataI h shotGUID "owner" killerID
  -- Ground-level death blossom
  match groundLoop m h playerPos rotation killerID 0 with
  | none => none
  | some h =>
    -- Death blossom at 45 degree angle
    let upCount : Int := upCountOf m (bz_getBZDBInt h "_gruesomeKillerBlossomCount")
    match upLoop m h playerPos rotation killerID upCount 0 with
    | none => none
    | some h =>
      -- Shot going directly upward
      let vel : Vec3 R := ⟨0, 0, 1⟩
      let (shotGUID, h) := bz_fireServerShot h "GK" playerPos vel (bz_getPlayerTeam h killerID)
      let h := bz_setShotMetaDataS h shotGUID "type" "GK"
      some (bz_setShotMetaDataI h shotGUID "owner" killerID)

/-- The attribution rewrite of the handler (lines 119-130). -/
def rewriteAttribution (h : Host R) (data : PlayerDieEventData R) : PlayerDieEventData R :=
  let shotGUID := bz_getShotGUID h data.killerID data.shotID
  if bz_shotHasMetaData h shotGUID "type" && bz_shotHasMetaData h shotGUID "owner" then
    let flagType := bz_getShotMetaDataS h shotGUID "type"
    if flagType = "GK" then
      let data := { data with killerID := bz_getShotMetaDataI h shotGUID "owner" }
      let data := { data with killerTeam := bz_getPlayerTeam h data.killerID }
      { data with flagKilledWith := "GK" }
    else data
  else data

/-- The handler `GruesomeKillerFlag::Event` (lines 112-154): the host state and the
event record after the handler has run.  `none` stands for a division by
zero. -/
def Event (m : Libm R) (h : Host R) (eventData : EventData R) :
    Option (Host R × EventData R) :=
  match eventData with
  | .playerDie data =>
    let data := rewriteAttribution h data
    if data.flagKilledWith = "GK" then
      let flagHeldWhenKilled := bz_getFlagName h data.flagHeldWhenKilled
      -- If we have Avenger, detonate our killer
      if flagHeldWhenKilled = "AV" then
        let killerRecord := bz_getPlayerByIndex h data.killerID
        match killerRecord with
        | some r =>
          match detonate m h r.lastKnownState.pos r.lastKnownState.rotation data.playerID with
          | none => none
          | some h => some (bz_freePlayerRecord h killerRecord, .playerDie data)
        | none => some (bz_freePlayerRecord h killerRecord, .playerDie data)
      -- Otherwise, detonate ourselves
      else
        match detonate m h data.state.pos data.state.rotation data.killerID with
        | none => none
        | some h => some (h, .playerDie data)
    else some (h, .playerDie data)
  | .other t => some (h, .other t)

/-! ## Auxiliary definitions used to state the theorems -/

/-- The host after `n` consecutive `fireShot` calls of one ring, the first
with loop variable `i`. -/
def fireRing (m : Libm R) (playerPos : Vec3 R) (rotation : R) (killerID : Int) (count : Int)
    (up : Bool) : Nat → Int → Host R → Host R
  | 0, _, h => h
  | n + 1, i, h =>
    fireRing m playerPos rotation killerID count up n (i + 1)
      (fireShot m h playerPos killerID (ringAngleValue count rotation i) up)

/-- The log entry of one ring shot: identifier `g`, fired from `playerPos`
at angle `angle` on behalf of `killerID`. -/
def ringShot (m : Libm R) (h : Host R) (playerPos : Vec3 R) (killerID : Int) (angle : R)
    (up : Bool) (g : Nat) : Shot R :=
  ⟨g, "GK", ⟨playerPos.x, playerPos.y, bz_getBZDBDouble h "_muzzleHeight"⟩, shotVel m angle up,
    bz_getPlayerTeam h killerID⟩

/-- One direct spawn of `detonate` with its two metadata writes (lines 85-87
and 106-108). -/
def spawnTagged (h : Host R) (shotType : String) (pos vel : Vec3 R) (killerID : Int) : Host R :=
  let (shotGUID, h) := bz_fireServerShot h shotType pos vel (bz_getPlayerTeam h killerID)
  let h := bz_setShotMetaDataS h shotGUID "type" "GK"
  bz_setShotMetaDataI h shotGUID "owner" killerID

/-- The metadata the plugin writes on a shot, read through the host's
queries: both keys present, `type` reading `"GK"` and `owner` reading
`owner`. -/
def Tagged (h : Host R) (g : Nat) (owner : Int) : Prop :=
  bz_shotHasMetaData h g "type" = true ∧ bz_shotHasMetaData h g "owner" = true ∧
    bz_getShotMetaDataS h g "type" = "GK" ∧ bz_getShotMetaDataI h g "owner" = owner

/-- The host after the four stages of `detonate`: shock wave, ground ring,
45 degree ring, upward shot. -/
def detonated (m : Libm R) (h : Host R) (playerPos : Vec3 R) (rotation : R) (killerID : Int) :
    Host R :=
  spawnTagged
    (fireRing m playerPos rotation killerID
      (upCountOf m (bz_getBZDBInt h "_gruesomeKillerBlossomCount")) true
      (upCountOf m (bz_getBZDBInt h "_gruesomeKillerBlossomCount")).toNat 0
      (fireRing m playerPos rotation killerID (bz_getBZDBInt h "_gruesomeKillerBlossomCount") false
        (bz_getBZDBInt h "_gruesomeKillerBlossomCount").toNat 0
        (spawnTagged h "SW" playerPos ⟨0, 0, 0⟩ killerID)))
    "GK" playerPos ⟨0, 0, 1⟩ killerID

/-- A host with the given tunable value, muzzle height 1, every player on
team 0, a player record for player 42 only, flag 1 named `"AV"`, no shot
spawned yet and no metadata. -/
def sampleHost (R : Type) [LinearOrderedField R] (blossomCount : Int) : Host R where
  bzdbInt := fun _ => blossomCount
  bzdbDouble := fun _ => 1
  playerTeam := fun _ => 0
  playerByIndex := fun i => if i = 42 then some ⟨⟨⟨1, 2, 3⟩, 0⟩⟩ else none
  shotGUID := fun killer shot => (killer * 256 + shot).toNat
  flagName := fun f => if f = 1 then "AV" else ""
  nextGUID := 0
  shots := []
  shotMeta := fun _ _ => none
  freed := []

/-- The sample host after shot 5 has been tagged on behalf of player 42. -/
def taggedHost (R : Type) [LinearOrderedField R] (blossomCount : Int) : Host R :=
  bz_setShotMetaDataI (bz_setShotMetaDataS (sampleHost R blossomCount) 5 "type" "GK") 5 "owner" 42

/-- A death of player 7 at `(4, 5, 6)`, caused by shot 5 of player 0. -/
def sampleDeath (R : Type) [LinearOrderedField R] (flagKilledWith : String)
    (flagHeldWhenKilled : Int) : PlayerDieEventData R where
  playerID := 7
  killerID := 0
  killerTeam := 3
  flagKilledWith := flagKilledWith
  flagHeldWhenKilled := flagHeldWhenKilled
  shotID := 5
  state := ⟨⟨4, 5, 6⟩, 1⟩

/-- Stand-ins for the `<math.h>` functions over the rationals. -/
def sampleLibm : Libm ℚ := ⟨fun _ => 1, fun _ => 0, fun _ => 1414 / 1000⟩

end Plugin

/-! ## Basic facts about the host calls and `fireShot` -/

section HostLemmas
variable {R : Type}

theorem spawnTagged_shotMeta (h : Host R) (ty : String) (pos vel : Vec3 R) (k : Int) (g : Nat)
    (key : String) :
    (spawnTagged h ty pos vel k).shotMeta g key =
      if g = h.nextGUID ∧ key = "owner" then some (.int k)
      else if g = h.nextGUID ∧ key = "type" then some (.str "GK")
      else h.shotMeta g key := rfl

/-- Reading the two keys back from the store. -/
theorem tagged_of_shotMeta (h : Host R) (g : Nat) (k : Int)
    (ht : h.shotMeta g "type" = some (.str "GK")) (ho : h.shotMeta g "owner" = some (.int k)) :
    Tagged h g k := by
  simp [Tagged, bz_shotHasMetaData, bz_getShotMetaDataS, bz_getShotMetaDataI, ht, ho]

/-- The rewrite touches only the killer id, the killer team and the
killed-with indicator. -/
theorem rewriteAttribution_frame (h : Host R) (data : PlayerDieEventData R) :
    (rewriteAttribution h data).playerID = data.playerID ∧
    (rewriteAttribution h data).flagHeldWhenKilled = data.flagHeldWhenKilled ∧
    (rewriteAttribution h data).shotID = data.shotID ∧
    (rewriteAttribution h data).state = data.state := by
  unfold rewriteAttribution
  simp only []
  split_ifs <;> exact ⟨rfl, rfl, rfl, rfl⟩

/-- The rewrite when the causing shot carries the plugin's tag. -/
theorem rewriteAttribution_tagged (h : Host R) (data : PlayerDieEventData R) (o : Int)
    (ht : Tagged h (bz_getShotGUID h data.killerID data.shotID) o) :
    rewriteAttribution h data =
      { data with killerID := o, killerTeam := bz_getPlayerTeam h o, flagKilledWith := "GK" } := by
  obtain ⟨h1, h2, h3, h4⟩ := ht
  unfold rewriteAttribution
  simp only [h1, h2, h3, h4, Bool.and_self, if_true]

/-- The rewrite when the causing shot does not carry the plugin's tag. -/
theorem rewriteAttribution_untagged (h : Host R) (data : PlayerDieEventData R)
    (hno : ¬ (bz_shotHasMetaData h (bz_getShotGUID h data.killerID data.shotID) "type" = true ∧
      bz_shotHasMetaData h (bz_getShotGUID h data.killerID data.shotID) "owner" = true ∧
      bz_getShotMetaDataS h (bz_getShotGUID h data.killerID data.shotID) "type" = "GK")) :
    rewriteAttribution h data = data := by
  unfold rewriteAttribution
  simp only []
  split_ifs with h1 h2
  · exact absurd ⟨(Bool.and_eq_true _ _ ▸ h1).1, (Bool.and_eq_true _ _ ▸ h1).2, h2⟩ hno
  · rfl
  · rfl

end HostLemmas

section Lemmas
variable {R : Type} [LinearOrderedField R]

theorem fireShot_shots (m : Libm R) (h : Host R) (p : Vec3 R) (k : Int) (a : R) (up : Bool) :
    (fireShot m h p k a up).shots = h.shots ++ [ringShot m h p k a up h.nextGUID] := rfl

theorem fireShot_nextGUID (m : Libm R) (h : Host R) (p : Vec3 R) (k : Int) (a : R) (up : Bool) :
    (fireShot m h p k a up).nextGUID = h.nextGUID + 1 := rfl

theorem fireShot_shotMeta (m : Libm R) (h : Host R) (p : Vec3 R) (k : Int) (a : R) (up : Bool)
    (g : Nat) (key : String) :
    (fireShot m h p k a up).shotMeta g key =
      if g = h.nextGUID ∧ key = "owner" then some (.int k)
      else if g = h.nextGUID ∧ key = "type" then some (.str "GK")
      else h.shotMeta g key := rfl

theorem groundLoop_eq (m : Libm R) (p : Vec3 R) (rot : R) (k : Int) (n : Nat) :
    ∀ (i : Int) (h : Host R), 0 ≤ i →
      (bz_getBZDBInt h "_gruesomeKillerBlossomCount" - i).toNat = n →
      groundLoop m h p rot k i =
        some (fireRing m p rot k (bz_getBZDBInt h "_gruesomeKillerBlossomCount") false n i h) := by
  induction n with
  | zero =>
    intro i h _ hn
    rw [groundLoop, if_neg (by omega)]
    rfl
  | succ n ih =>
    intro i h hi hn
    have hlt : i < bz_getBZDBInt h "_gruesomeKillerBlossomCount" := by omega
    have hne : bz_getBZDBInt h "_gruesomeKillerBlossomCount" ≠ 0 := by omega
    rw [groundLoop, if_pos hlt]
    simp only [ringAngle, if_neg hne]
    rw [ih (i + 1) _ (by omega)]
    · rfl
    · show (bz_getBZDBInt h "_gruesomeKillerBlossomCount" - (i + 1)).toNat = n
      omega

theorem upLoop_eq (m : Libm R) (p : Vec3 R) (rot : R) (k : Int) (upCount : Int) (n : Nat) :
    ∀ (i : Int) (h : Host R), 0 ≤ i → (upCount - i).toNat = n →
      upLoop m h p rot k upCount i = some (fireRing m p rot k upCount true n i h) := by
  induction n with
  | zero =>
    intro i h _ hn
    rw [upLoop, if_neg (by omega)]
    rfl
  | succ n ih =>
    intro i h hi hn
    have hlt : i < upCount := by omega
    have hne : upCount ≠ 0 := by omega
    rw [upLoop, if_pos hlt]
    simp only [ringAngle, if_neg hne]
    rw [ih (i + 1) _ (by omega) (by omega)]
    rfl

theorem fireRing_shots (m : Libm R) (p : Vec3 R) (rot : R) (k : Int) (c : Int) (up : Bool)
    (n : Nat) : ∀ (i : Int) (h : Host R),
      (fireRing m p rot k c up n i h).shots =
        h.shots ++ (List.range n).map
          (fun (j : Nat) =>
            ringShot m h p k (ringAngleValue c rot (i + (j : Int))) up (h.nextGUID + j)) := by
  induction n with
  | zero => intro i h; simp [fireRing]
  | succ n ih =>
    intro i h
    rw [fireRing, ih, fireShot_shots, fireShot_nextGUID, List.range_succ_eq_map, List.map_cons,
      List.map_map, List.append_assoc]
    congr 1
    simp only [List.singleton_append, Nat.cast_zero, add_zero, List.cons.injEq, true_and]
    apply List.map_congr_left
    intro j _
    simp only [Function.comp, Nat.cast_succ]
    have e1 : i + 1 + (j : Int) = i + ((j : Int) + 1) := by ring
    have e2 : h.nextGUID + 1 + j = h.nextGUID + j.succ := by omega
    rw [e1, e2]
    rfl

theorem fireRing_nextGUID (m : Libm R) (p : Vec3 R) (rot : R) (k : Int) (c : Int) (up : Bool)
    (n : Nat) : ∀ (i : Int) (h : Host R),
      (fireRing m p rot k c up n i h).nextGUID = h.nextGUID + n := by
  induction n with
  | zero => intro i h; rfl
  | succ n ih => intro i h; rw [fireRing, ih, fireShot_nextGUID]; omega

theorem fireRing_shotMeta (m : Libm R) (p : Vec3 R) (rot : R) (k : Int) (c : Int) (up : Bool)
    (n : Nat) : ∀ (i : Int) (h : Host R) (g : Nat) (key : String),
      (fireRing m p rot k c up n i h).shotMeta g key =
        if (h.nextGUID ≤ g ∧ g < h.nextGUID + n) ∧ key = "owner" then some (.int k)
        else if (h.nextGUID ≤ g ∧ g < h.nextGUID + n) ∧ key = "type" then some (.str "GK")
        else h.shotMeta g key := by
  have hne : ("owner" : String) ≠ "type" := by decide
  induction n with
  | zero =>
    intro i h g key
    have hempty : ¬ (h.nextGUID ≤ g ∧ g < h.nextGUID + 0) := by omega
    rw [if_neg (fun hh => hempty hh.1), if_neg (fun hh => hempty hh.1)]
    rfl
  | succ n ih =>
    intro i h g key
    rw [fireRing, ih, fireShot_nextGUID, fireShot_shotMeta]
    by_cases ho : key = "owner"
    · subst ho
      simp only [hne, and_false, if_false, and_true]
      split_ifs <;> first | rfl | (exfalso; omega)
    · by_cases ht : key = "type"
      · subst ht
        simp only [hne.symm, and_false, if_false, and_true]
        split_ifs <;> first | rfl | (exfalso; omega)
      · simp only [ho, ht, and_false, if_false]

/-- The configuration part of the host, which no call of the plugin changes. -/
theorem fireRing_frame (m : Libm R) (p : Vec3 R) (rot : R) (k : Int) (c : Int) (up : Bool)
    (n : Nat) : ∀ (i : Int) (h : Host R),
      (fireRing m p rot k c up n i h).bzdbInt = h.bzdbInt ∧
      (fireRing m p rot k c up n i h).bzdbDouble = h.bzdbDouble ∧
      (fireRing m p rot k c up n i h).playerTeam = h.playerTeam ∧
      (fireRing m p rot k c up n i h).playerByIndex = h.playerByIndex ∧
      (fireRing m p rot k c up n i h).shotGUID = h.shotGUID ∧
      (fireRing m p rot k c up n i h).flagName = h.flagName ∧
      (fireRing m p rot k c up n i h).freed = h.freed := by
  induction n with
  | zero => intro i h; exact ⟨rfl, rfl, rfl, rfl, rfl, rfl, rfl⟩
  | succ n ih => intro i h; rw [fireRing]; exact ih _ _

theorem ringShot_congr (m : Libm R) (h1 h : Host R) (hd : h1.bzdbDouble = h.bzdbDouble)
    (ht : h1.playerTeam = h.playerTeam) : ringShot m h1 = ringShot m h := by
  funext p k a up g
  simp only [ringShot, bz_getBZDBDouble, bz_getPlayerTeam, hd, ht]

section Detonate
variable [FloorRing R]

/-- The routine `detonate` never divides by zero, and its result is the shock wave, the
two rings and the upward shot, in this order. -/
theorem detonate_eq (m : Libm R) (h : Host R) (p : Vec3 R) (rot : R) (k : Int) :
    detonate m h p rot k = some (detonated m h p rot k) := by
  unfold detonated
  have hg := groundLoop_eq m p rot k (bz_getBZDBInt h "_gruesomeKillerBlossomCount").toNat 0
    (spawnTagged h "SW" p ⟨0, 0, 0⟩ k) le_rfl (by
      show (bz_getBZDBInt h "_gruesomeKillerBlossomCount" - 0).toNat = _
      rw [sub_zero])
  have hN : bz_getBZDBInt (spawnTagged h "SW" p ⟨0, 0, 0⟩ k) "_gruesomeKillerBlossomCount" =
      bz_getBZDBInt h "_gruesomeKillerBlossomCount" := rfl
  rw [hN] at hg
  have hframe := fireRing_frame m p rot k (bz_getBZDBInt h "_gruesomeKillerBlossomCount") false
    (bz_getBZDBInt h "_gruesomeKillerBlossomCount").toNat 0 (spawnTagged h "SW" p ⟨0, 0, 0⟩ k)
  have hN2 : bz_getBZDBInt (fireRing m p rot k (bz_getBZDBInt h "_gruesomeKillerBlossomCount")
      false (bz_getBZDBInt h "_gruesomeKillerBlossomCount").toNat 0
      (spawnTagged h "SW" p ⟨0, 0, 0⟩ k)) "_gruesomeKillerBlossomCount" =
      bz_getBZDBInt h "_gruesomeKillerBlossomCount" := by
    show (fireRing m p rot k _ false _ 0 (spawnTagged h "SW" p ⟨0, 0, 0⟩ k)).bzdbInt _ = _
    rw [hframe.1]
    rfl
  have hu := upLoop_eq m p rot k (upCountOf m (bz_getBZDBInt h "_gruesomeKillerBlossomCount"))
    (upCountOf m (bz_getBZDBInt h "_gruesomeKillerBlossomCount")).toNat 0
    (fireRing m p rot k (bz_getBZDBInt h "_gruesomeKillerBlossomCount") false
      (bz_getBZDBInt h "_gruesomeKillerBlossomCount").toNat 0 (spawnTagged h "SW" p ⟨0, 0, 0⟩ k))
    le_rfl (by rw [sub_zero])
  unfold detonate
  simp only []
  change (match groundLoop m (spawnTagged h "SW" p ⟨0, 0, 0⟩ k) p rot k 0 with
    | none => none
    | some h => _) = _
  rw [hg]
  simp only [hN2]
  rw [hu]
  rfl

theorem detonated_nextGUID (m : Libm R) (h : Host R) (p : Vec3 R) (rot : R) (k : Int) :
    (detonated m h p rot k).nextGUID =
      h.nextGUID + 1 + (bz_getBZDBInt h "_gruesomeKillerBlossomCount").toNat +
        (upCountOf m (bz_getBZDBInt h "_gruesomeKillerBlossomCount")).toNat + 1 := by
  show (fireRing m p rot k _ true _ 0 _).nextGUID + 1 = _
  rw [fireRing_nextGUID, fireRing_nextGUID]
  rfl

theorem detonated_shots (m : Libm R) (h : Host R) (p : Vec3 R) (rot : R) (k : Int) :
    (detonated m h p rot k).shots =
      h.shots ++ [⟨h.nextGUID, "SW", p, ⟨0, 0, 0⟩, bz_getPlayerTeam h k⟩] ++
        (List.range (bz_getBZDBInt h "_gruesomeKillerBlossomCount").toNat).map
          (fun (j : Nat) => ringShot m h p k
            (ringAngleValue (bz_getBZDBInt h "_gruesomeKillerBlossomCount") rot j) false
            (h.nextGUID + 1 + j)) ++
        (List.range (upCountOf m (bz_getBZDBInt h "_gruesomeKillerBlossomCount")).toNat).map
          (fun (j : Nat) => ringShot m h p k
            (ringAngleValue (upCountOf m (bz_getBZDBInt h "_gruesomeKillerBlossomCount")) rot j)
            true (h.nextGUID + 1 + (bz_getBZDBInt h "_gruesomeKillerBlossomCount").toNat + j)) ++
        [⟨h.nextGUID + 1 + (bz_getBZDBInt h "_gruesomeKillerBlossomCount").toNat +
            (upCountOf m (bz_getBZDBInt h "_gruesomeKillerBlossomCount")).toNat,
          "GK", p, ⟨0, 0, 1⟩, bz_getPlayerTeam h k⟩] := by
  have hf := fireRing_frame m p rot k (bz_getBZDBInt h "_gruesomeKillerBlossomCount") false
    (bz_getBZDBInt h "_gruesomeKillerBlossomCount").toNat 0 (spawnTagged h "SW" p ⟨0, 0, 0⟩ k)
  have hf2 := fireRing_frame m p rot k
    (upCountOf m (bz_getBZDBInt h "_gruesomeKillerBlossomCount")) true
    (upCountOf m (bz_getBZDBInt h "_gruesomeKillerBlossomCount")).toNat 0
    (fireRing m p rot k (bz_getBZDBInt h "_gruesomeKillerBlossomCount") false
      (bz_getBZDBInt h "_gruesomeKillerBlossomCount").toNat 0 (spawnTagged h "SW" p ⟨0, 0, 0⟩ k))
  show (fireRing m p rot k _ true _ 0 _).shots ++
    [⟨(fireRing m p rot k _ true _ 0 _).nextGUID, "GK", p, ⟨0, 0, 1⟩,
      (fireRing m p rot k _ true _ 0 _).playerTeam k⟩] = _
  rw [fireRing_shots, fireRing_shots, hf2.2.2.1, hf.2.2.1, ringShot_congr m _ h hf.2.1 hf.2.2.1]
  simp only [fireRing_nextGUID, zero_add]
  rfl

theorem detonated_shotMeta (m : Libm R) (h : Host R) (p : Vec3 R) (rot : R) (k : Int) (g : Nat)
    (key : String) :
    (detonated m h p rot k).shotMeta g key =
      if (h.nextGUID ≤ g ∧ g < (detonated m h p rot k).nextGUID) ∧ key = "owner" then
        some (.int k)
      else if (h.nextGUID ≤ g ∧ g < (detonated m h p rot k).nextGUID) ∧ key = "type" then
        some (.str "GK")
      else h.shotMeta g key := by
  have hne : ("owner" : String) ≠ "type" := by decide
  rw [detonated_nextGUID]
  unfold detonated
  rw [spawnTagged_shotMeta, fireRing_nextGUID, fireRing_nextGUID, fireRing_shotMeta,
    fireRing_nextGUID, fireRing_shotMeta, spawnTagged_shotMeta]
  have e : (spawnTagged h "SW" p ⟨0, 0, 0⟩ k).nextGUID = h.nextGUID + 1 := rfl
  rw [e]
  by_cases ho : key = "owner"
  · subst ho
    simp only [hne, and_false, if_false, and_true]
    split_ifs <;> first | rfl | (exfalso; omega)
  · by_cases ht : key = "type"
    · subst ht
      simp only [hne.symm, and_false, if_false, and_true]
      split_ifs <;> first | rfl | (exfalso; omega)
    · simp only [ho, ht, and_false, if_false]

theorem detonated_frame (m : Libm R) (h : Host R) (p : Vec3 R) (rot : R) (k : Int) :
    (detonated m h p rot k).bzdbInt = h.bzdbInt ∧
    (detonated m h p rot k).bzdbDouble = h.bzdbDouble ∧
    (detonated m h p rot k).playerTeam = h.playerTeam ∧
    (detonated m h p rot k).playerByIndex = h.playerByIndex ∧
    (detonated m h p rot k).shotGUID = h.shotGUID ∧
    (detonated m h p rot k).flagName = h.flagName ∧
    (detonated m h p rot k).freed = h.freed := by
  have hf := fireRing_frame m p rot k (bz_getBZDBInt h "_gruesomeKillerBlossomCount") false
    (bz_getBZDBInt h "_gruesomeKillerBlossomCount").toNat 0 (spawnTagged h "SW" p ⟨0, 0, 0⟩ k)
  have hf2 := fireRing_frame m p rot k
    (upCountOf m (bz_getBZDBInt h "_gruesomeKillerBlossomCount")) true
    (upCountOf m (bz_getBZDBInt h "_gruesomeKillerBlossomCount")).toNat 0
    (fireRing m p rot k (bz_getBZDBInt h "_gruesomeKillerBlossomCount") false
      (bz_getBZDBInt h "_gruesomeKillerBlossomCount").toNat 0 (spawnTagged h "SW" p ⟨0, 0, 0⟩ k))
  obtain ⟨a1, a2, a3, a4, a5, a6, a7⟩ := hf
  obtain ⟨b1, b2, b3, b4, b5, b6, b7⟩ := hf2
  refine ⟨?_, ?_, ?_, ?_, ?_, ?_, ?_⟩
  · exact b1.trans a1
  · exact b2.trans a2
  · exact b3.trans a3
  · exact b4.trans a4
  · exact b5.trans a5
  · exact b6.trans a6
  · exact b7.trans a7

/-- The log after `detonate`: one shock wave at the given position, then
shots of type `"GK"` only. -/
theorem detonated_shots_cons (m : Libm R) (h : Host R) (p : Vec3 R) (rot : R) (k : Int) :
    ∃ rest : List (Shot R),
      (detonated m h p rot k).shots =
        h.shots ++ (⟨h.nextGUID, "SW", p, ⟨0, 0, 0⟩, bz_getPlayerTeam h k⟩ : Shot R) :: rest ∧
      ∀ s ∈ rest, s.shotType = "GK" := by
  refine ⟨(List.range (bz_getBZDBInt h "_gruesomeKillerBlossomCount").toNat).map
      (fun (j : Nat) => ringShot m h p k
        (ringAngleValue (bz_getBZDBInt h "_gruesomeKillerBlossomCount") rot j) false
        (h.nextGUID + 1 + j)) ++
    ((List.range (upCountOf m (bz_getBZDBInt h "_gruesomeKillerBlossomCount")).toNat).map
      (fun (j : Nat) => ringShot m h p k
        (ringAngleValue (upCountOf m (bz_getBZDBInt h "_gruesomeKillerBlossomCount")) rot j)
        true (h.nextGUID + 1 + (bz_getBZDBInt h "_gruesomeKillerBlossomCount").toNat + j)) ++
    [⟨h.nextGUID + 1 + (bz_getBZDBInt h "_gruesomeKillerBlossomCount").toNat +
        (upCountOf m (bz_getBZDBInt h "_gruesomeKillerBlossomCount")).toNat,
      "GK", p, ⟨0, 0, 1⟩, bz_getPlayerTeam h k⟩]), ?_, ?_⟩
  · rw [detonated_shots]
    simp only [List.append_assoc, List.singleton_append, List.cons_append, List.nil_append]
  · intro s hs
    simp only [List.mem_append, List.mem_map, List.mem_singleton] at hs
    rcases hs with ⟨j, _, rfl⟩ | ⟨j, _, rfl⟩ | rfl <;> rfl

theorem detonated_tagged (m : Libm R) (h : Host R) (p : Vec3 R) (rot : R) (k : Int) (g : Nat)
    (h1 : h.nextGUID ≤ g) (h2 : g < (detonated m h p rot k).nextGUID) :
    Tagged (detonated m h p rot k) g k := by
  apply tagged_of_shotMeta
  · rw [detonated_shotMeta, if_neg (fun hh => absurd hh.2 (by decide)), if_pos ⟨⟨h1, h2⟩, rfl⟩]
  · rw [detonated_shotMeta, if_pos ⟨⟨h1, h2⟩, rfl⟩]

/-- The handler always returns, and the event record it leaves is the
rewritten one. -/
theorem Event_playerDie_data (m : Libm R) (h : Host R) (data : PlayerDieEventData R) :
    ∃ h', Event m h (.playerDie data) = some (h', .playerDie (rewriteAttribution h data)) := by
  simp only [Event]
  split_ifs
  · cases hr : bz_getPlayerByIndex h (rewriteAttribution h data).killerID with
    | none => exact ⟨_, rfl⟩
    | some r => simp only [detonate_eq]; exact ⟨_, rfl⟩
  · simp only [detonate_eq]; exact ⟨_, rfl⟩
  · exact ⟨_, rfl⟩

end Detonate

end Lemmas

/-! ## Facts over the reals -/

section RealFacts

theorem shotVel_real_up (a : ℝ) :
    shotVel ⟨Real.cos, Real.sin, Real.sqrt⟩ a true =
      ⟨Real.cos a * (Real.sqrt 2 / 2), Real.sin a * (Real.sqrt 2 / 2), Real.sqrt 2 / 2⟩ := by
  have e : (2.0 : ℝ) = 2 := by norm_num
  simp only [shotVel, if_true, e]

theorem shotVel_real_ground (a : ℝ) :
    shotVel ⟨Real.cos, Real.sin, Real.sqrt⟩ a false = ⟨Real.cos a, Real.sin a, 0⟩ := by
  simp only [shotVel, Bool.false_eq_true, if_false]

/-- For a tunable value that is zero or negative the conversion to `int`
gives a value that is zero or negative. -/
theorem upCountOf_real_of_nonpos (cosF sinF : ℝ → ℝ) (N : Int) (hN : N ≤ 0) :
    upCountOf (⟨cosF, sinF, Real.sqrt⟩ : Libm ℝ) N ≤ 0 := by
  have hx : (N : ℝ) / Real.sqrt 2 ≤ 0 :=
    div_nonpos_of_nonpos_of_nonneg (by exact_mod_cast hN) (Real.sqrt_nonneg 2)
  simp only [upCountOf, toInt]
  split_ifs with h0
  · have hzero : (N : ℝ) / Real.sqrt 2 = 0 := le_antisymm hx h0
    rw [hzero, Int.floor_zero]
  · have := Int.ceil_le.mpr (show (N : ℝ) / Real.sqrt 2 ≤ ((0 : Int) : ℝ) by
      rw [Int.cast_zero]; exact hx)
    exact this

/-- With the tunable at zero or below, both loops of `detonate` run zero
times: the log grows by the shock wave and the upward shot only. -/
theorem detonate_real_of_nonpos (cosF sinF : ℝ → ℝ) (h : Host ℝ) (p : Vec3 ℝ) (rot : ℝ)
    (k : Int) (hN : bz_getBZDBInt h "_gruesomeKillerBlossomCount" ≤ 0) :
    ∃ h' : Host ℝ, detonate ⟨cosF, sinF, Real.sqrt⟩ h p rot k = some h' ∧
      h'.shots = h.shots ++
        [⟨h.nextGUID, "SW", p, ⟨0, 0, 0⟩, bz_getPlayerTeam h k⟩,
          ⟨h.nextGUID + 1, "GK", p, ⟨0, 0, 1⟩, bz_getPlayerTeam h k⟩] := by
  have hM := upCountOf_real_of_nonpos cosF sinF _ hN
  refine ⟨_, detonate_eq _ h p rot k, ?_⟩
  rw [detonated_shots, Int.toNat_eq_zero.mpr hN, Int.toNat_eq_zero.mpr hM]
  simp only [List.range_zero, List.map_nil, List.append_nil, List.append_assoc,
    List.singleton_append, add_zero]

end RealFacts

/-! ## The claims -/

section Claims

/-- C7: over the reals, the velocity `fireShot` passes to the host for an
elevated shot at angle `a` is `(cos a * (√2/2), sin a * (√2/2), √2/2)`: the
horizontal magnitude and the vertical component are both `√2/2` and the
Euclidean norm is 1; for a ground shot it is `(cos a, sin a, 0)`, of norm 1. -/
theorem fireShot_velocity_is_unit (h : Host ℝ) (pos : Vec3 ℝ) (ownerId : Int) (a : ℝ) :
    (∃ s : Shot ℝ,
      (fireShot ⟨Real.cos, Real.sin, Real.sqrt⟩ h pos ownerId a true).shots = h.shots ++ [s] ∧
      s.vel = ⟨Real.cos a * (Real.sqrt 2 / 2), Real.sin a * (Real.sqrt 2 / 2),
        Real.sqrt 2 / 2⟩ ∧
      Real.sqrt (s.vel.x ^ 2 + s.vel.y ^ 2) = Real.sqrt 2 / 2 ∧
      s.vel.z = Real.sqrt 2 / 2 ∧
      Real.sqrt (s.vel.x ^ 2 + s.vel.y ^ 2 + s.vel.z ^ 2) = 1) ∧
    (∃ s : Shot ℝ,
      (fireShot ⟨Real.cos, Real.sin, Real.sqrt⟩ h pos ownerId a false).shots = h.shots ++ [s] ∧
      s.vel = ⟨Real.cos a, Real.sin a, 0⟩ ∧
      Real.sqrt (s.vel.x ^ 2 + s.vel.y ^ 2 + s.vel.z ^ 2) = 1) := by
  have hcs : Real.cos a ^ 2 + Real.sin a ^ 2 = 1 := Real.cos_sq_add_sin_sq a
  have h2 : Real.sqrt 2 ^ 2 = 2 := Real.sq_sqrt (by norm_num)
  have hnn : (0 : ℝ) ≤ Real.sqrt 2 / 2 := div_nonneg (Real.sqrt_nonneg 2) (by norm_num)
  constructor
  · refine ⟨_, fireShot_shots _ h pos ownerId a true, ?_, ?_, ?_, ?_⟩
    · exact shotVel_real_up a
    · show Real.sqrt ((shotVel _ a true).x ^ 2 + (shotVel _ a true).y ^ 2) = _
      rw [shotVel_real_up]
      have e : (Real.cos a * (Real.sqrt 2 / 2)) ^ 2 + (Real.sin a * (Real.sqrt 2 / 2)) ^ 2 =
          (Real.sqrt 2 / 2) ^ 2 := by
        have : (Real.cos a * (Real.sqrt 2 / 2)) ^ 2 + (Real.sin a * (Real.sqrt 2 / 2)) ^ 2 =
            (Real.cos a ^ 2 + Real.sin a ^ 2) * (Real.sqrt 2 / 2) ^ 2 := by ring
        rw [this, hcs, one_mul]
      rw [e, Real.sqrt_sq hnn]
    · show (shotVel _ a true).z = _
      rw [shotVel_real_up]
    · show Real.sqrt ((shotVel _ a true).x ^ 2 + (shotVel _ a true).y ^ 2 +
        (shotVel _ a true).z ^ 2) = 1
      rw [shotVel_real_up]
      have e : (Real.cos a * (Real.sqrt 2 / 2)) ^ 2 + (Real.sin a * (Real.sqrt 2 / 2)) ^ 2 +
          (Real.sqrt 2 / 2) ^ 2 = 1 := by
        have : (Real.cos a * (Real.sqrt 2 / 2)) ^ 2 + (Real.sin a * (Real.sqrt 2 / 2)) ^ 2 +
            (Real.sqrt 2 / 2) ^ 2 =
            (Real.cos a ^ 2 + Real.sin a ^ 2 + 1) * (Real.sqrt 2 ^ 2 / 4) := by ring
        rw [this, hcs, h2]
        norm_num
      rw [e, Real.sqrt_one]
  · refine ⟨_, fireShot_shots _ h pos ownerId a false, ?_, ?_⟩
    · exact shotVel_real_ground a
    · show Real.sqrt ((shotVel _ a false).x ^ 2 + (shotVel _ a false).y ^ 2 +
        (shotVel _ a false).z ^ 2) = 1
      rw [shotVel_real_ground]
      have e : Real.cos a ^ 2 + Real.sin a ^ 2 + (0 : ℝ) ^ 2 = 1 := by rw [hcs]; norm_num
      rw [e, Real.sqrt_one]

end Claims

section HandlerClaims
variable {R : Type} [LinearOrderedField R] [FloorRing R]

/-- C2: every shot the plugin spawns carries both metadata entries.  After
`fireShot`, the shot it added to the host's log has the identifier the spawn
call returned and reads back `type = "GK"`, `owner = ownerId`.  After
`detonate`, the log has grown by the shock wave, the ring shots and the
upward shot, and each of them reads back `type = "GK"`, `owner = killerId`;
the shock wave does so already right after its own creation. -/
theorem spawned_shots_carry_type_and_owner (m : Libm R) (h : Host R) (pos : Vec3 R)
    (ownerId : Int) (angle : R) (up : Bool) (rotation : R) (killerId : Int) :
    (∃ s : Shot R, (fireShot m h pos ownerId angle up).shots = h.shots ++ [s] ∧
      s.guid = (bz_fireServerShot h "GK" ⟨pos.x, pos.y, bz_getBZDBDouble h "_muzzleHeight"⟩
        (shotVel m angle up) (bz_getPlayerTeam h ownerId)).1 ∧
      Tagged (fireShot m h pos ownerId angle up) s.guid ownerId) ∧
    (∃ (h' : Host R) (sw top : Shot R) (ring : List (Shot R)),
      detonate m h pos rotation killerId = some h' ∧
      h'.shots = h.shots ++ sw :: ring ++ [top] ∧
      sw.shotType = "SW" ∧
      sw.guid = (bz_fireServerShot h "SW" pos ⟨0, 0, 0⟩ (bz_getPlayerTeam h killerId)).1 ∧
      top.shotType = "GK" ∧ top.pos = pos ∧ top.vel = ⟨0, 0, 1⟩ ∧
      Tagged (spawnTagged h "SW" pos ⟨0, 0, 0⟩ killerId) sw.guid killerId ∧
      Tagged h' sw.guid killerId ∧
      (∀ s ∈ ring, Tagged h' s.guid killerId) ∧
      Tagged h' top.guid killerId) := by
  constructor
  · refine ⟨_, fireShot_shots m h pos ownerId angle up, rfl, ?_⟩
    apply tagged_of_shotMeta
    · rw [fireShot_shotMeta, if_neg (fun hh => absurd hh.2 (by decide)), if_pos ⟨rfl, rfl⟩]
    · rw [fireShot_shotMeta, if_pos ⟨rfl, rfl⟩]
  · have hnext := detonated_nextGUID m h pos rotation killerId
    have hshots := detonated_shots m h pos rotation killerId
    have hshots2 : (detonated m h pos rotation killerId).shots =
        h.shots ++ (⟨h.nextGUID, "SW", pos, ⟨0, 0, 0⟩, bz_getPlayerTeam h killerId⟩ : Shot R) ::
          ((List.range (bz_getBZDBInt h "_gruesomeKillerBlossomCount").toNat).map
            (fun (j : Nat) => ringShot m h pos killerId
              (ringAngleValue (bz_getBZDBInt h "_gruesomeKillerBlossomCount") rotation j) false
              (h.nextGUID + 1 + j)) ++
          (List.range (upCountOf m (bz_getBZDBInt h "_gruesomeKillerBlossomCount")).toNat).map
            (fun (j : Nat) => ringShot m h pos killerId
              (ringAngleValue (upCountOf m (bz_getBZDBInt h "_gruesomeKillerBlossomCount"))
                rotation j)
              true (h.nextGUID + 1 + (bz_getBZDBInt h "_gruesomeKillerBlossomCount").toNat + j))) ++
          [(⟨h.nextGUID + 1 + (bz_getBZDBInt h "_gruesomeKillerBlossomCount").toNat +
              (upCountOf m (bz_getBZDBInt h "_gruesomeKillerBlossomCount")).toNat,
            "GK", pos, ⟨0, 0, 1⟩, bz_getPlayerTeam h killerId⟩ : Shot R)] := by
      rw [hshots]
      simp only [List.append_assoc, List.singleton_append, List.cons_append, List.nil_append]
    refine ⟨_, _, _, _, detonate_eq m h pos rotation killerId, hshots2, rfl, rfl, rfl, rfl, rfl,
      ?_, ?_, ?_, ?_⟩
    · apply tagged_of_shotMeta
      · rw [spawnTagged_shotMeta, if_neg (fun hh => absurd hh.2 (by decide)), if_pos ⟨rfl, rfl⟩]
      · rw [spawnTagged_shotMeta, if_pos ⟨rfl, rfl⟩]
    · exact detonated_tagged m h pos rotation killerId _ le_rfl
        (by rw [hnext]; show h.nextGUID < _; omega)
    · intro s hs
      rw [List.mem_append] at hs
      rcases hs with hs | hs
      · obtain ⟨j, hj, rfl⟩ := List.mem_map.mp hs
        rw [List.mem_range] at hj
        exact detonated_tagged m h pos rotation killerId _
          (by show h.nextGUID ≤ h.nextGUID + 1 + j; omega)
          (by rw [hnext]; show h.nextGUID + 1 + j < _; omega)
      · obtain ⟨j, hj, rfl⟩ := List.mem_map.mp hs
        rw [List.mem_range] at hj
        exact detonated_tagged m h pos rotation killerId _
          (by show h.nextGUID ≤ h.nextGUID + 1 + _ + j; omega)
          (by rw [hnext]; show h.nextGUID + 1 + _ + j < _; omega)
    · exact detonated_tagged m h pos rotation killerId _
        (by show h.nextGUID ≤ h.nextGUID + 1 + _ + _; omega)
        (by rw [hnext]; show h.nextGUID + 1 + _ + _ < _; omega)

/-- C3: when the causing shot (the one `bz_getShotGUID` gives for the
event's killer id and shot id) has both keys, with `type = "GK"` and
`owner = o`, the handler returns and leaves the event with killer id `o`,
killer team the host's team of player `o`, and killed-with `"GK"`. -/
theorem Event_rewrites_attribution (m : Libm R) (h : Host R) (data : PlayerDieEventData R)
    (o : Int)
    (hType : bz_shotHasMetaData h (bz_getShotGUID h data.killerID data.shotID) "type" = true)
    (hOwner : bz_shotHasMetaData h (bz_getShotGUID h data.killerID data.shotID) "owner" = true)
    (hGK : bz_getShotMetaDataS h (bz_getShotGUID h data.killerID data.shotID) "type" = "GK")
    (hO : bz_getShotMetaDataI h (bz_getShotGUID h data.killerID data.shotID) "owner" = o) :
    ∃ (h' : Host R) (data' : PlayerDieEventData R),
      Event m h (.playerDie data) = some (h', .playerDie data') ∧
      data'.killerID = o ∧ data'.killerTeam = bz_getPlayerTeam h o ∧
      data'.flagKilledWith = "GK" := by
  obtain ⟨h', hE⟩ := Event_playerDie_data m h data
  refine ⟨h', _, hE, ?_, ?_, ?_⟩ <;>
    rw [rewriteAttribution_tagged h data o ⟨hType, hOwner, hGK, hO⟩]

/-- Witness of C3: a shot tagged with owner 42 gives killer id 42. -/
theorem Event_rewrites_attribution_witness :
    bz_getShotMetaDataI (taggedHost ℚ 12)
      (bz_getShotGUID (taggedHost ℚ 12) (sampleDeath ℚ "" 0).killerID
        (sampleDeath ℚ "" 0).shotID) "owner" = 42 ∧
    ∃ (h' : Host ℚ) (data' : PlayerDieEventData ℚ),
      Event sampleLibm (taggedHost ℚ 12) (.playerDie (sampleDeath ℚ "" 0)) =
        some (h', .playerDie data') ∧
      data'.killerID = 42 ∧ data'.killerTeam = bz_getPlayerTeam (taggedHost ℚ 12) 42 ∧
      data'.flagKilledWith = "GK" :=
  ⟨by decide,
    Event_rewrites_attribution sampleLibm (taggedHost ℚ 12) (sampleDeath ℚ "" 0) 42
      (by decide) (by decide) (by decide) (by decide)⟩

/-- C4: when the killed-with indicator after the rewrite is `"GK"`, the
victim held the flag named `"AV"` and the lookup of the (rewritten) killer
id returns a record, the handler's effect on the host is that of one
`detonate` call at the record's last known position and rotation, followed
by the release of the record; the one shock wave added to the log sits at
the killer's position, whatever the victim's death position is. -/
theorem Event_avenger_detonates_at_killer (m : Libm R) (h : Host R)
    (data : PlayerDieEventData R) (killerRecord : BasePlayerRecord R)
    (hGK : (rewriteAttribution h data).flagKilledWith = "GK")
    (hAV : bz_getFlagName h data.flagHeldWhenKilled = "AV")
    (hRec : bz_getPlayerByIndex h (rewriteAttribution h data).killerID = some killerRecord) :
    ∃ (h' : Host R) (rest : List (Shot R)),
      detonate m h killerRecord.lastKnownState.pos killerRecord.lastKnownState.rotation
        data.playerID = some h' ∧
      Event m h (.playerDie data) =
        some (bz_freePlayerRecord h' (some killerRecord),
          .playerDie (rewriteAttribution h data)) ∧
      h'.shots = h.shots ++
        (⟨h.nextGUID, "SW", killerRecord.lastKnownState.pos, ⟨0, 0, 0⟩,
          bz_getPlayerTeam h data.playerID⟩ : Shot R) :: rest ∧
      ∀ s ∈ rest, s.shotType = "GK" := by
  have hfl : bz_getFlagName h (rewriteAttribution h data).flagHeldWhenKilled = "AV" := by
    rw [(rewriteAttribution_frame h data).2.1]; exact hAV
  obtain ⟨rest, hshots, hrest⟩ := detonated_shots_cons m h killerRecord.lastKnownState.pos
    killerRecord.lastKnownState.rotation data.playerID
  refine ⟨_, rest, detonate_eq m h _ _ _, ?_, hshots, hrest⟩
  simp only [Event, hGK, hfl, hRec, if_true, detonate_eq, (rewriteAttribution_frame h data).1]

/-- Witness of C4: the victim held flag 1 (`"AV"`), the tagged shot makes
player 42 the killer, and player 42 has a record. -/
theorem Event_avenger_detonates_at_killer_witness :
    (rewriteAttribution (taggedHost ℚ 1) (sampleDeath ℚ "" 1)).flagKilledWith = "GK" ∧
    ∃ (h' : Host ℚ) (rest : List (Shot ℚ)),
      detonate sampleLibm (taggedHost ℚ 1) ⟨1, 2, 3⟩ 0 7 = some h' ∧
      Event sampleLibm (taggedHost ℚ 1) (.playerDie (sampleDeath ℚ "" 1)) =
        some (bz_freePlayerRecord h' (some ⟨⟨⟨1, 2, 3⟩, 0⟩⟩),
          .playerDie (rewriteAttribution (taggedHost ℚ 1) (sampleDeath ℚ "" 1))) ∧
      h'.shots = (taggedHost ℚ 1).shots ++
        (⟨(taggedHost ℚ 1).nextGUID, "SW", ⟨1, 2, 3⟩, ⟨0, 0, 0⟩,
          bz_getPlayerTeam (taggedHost ℚ 1) 7⟩ : Shot ℚ) :: rest ∧
      ∀ s ∈ rest, s.shotType = "GK" :=
  ⟨by decide,
    Event_avenger_detonates_at_killer sampleLibm (taggedHost ℚ 1) (sampleDeath ℚ "" 1)
      ⟨⟨⟨1, 2, 3⟩, 0⟩⟩ (by decide) (by decide) rfl⟩

/-- C5: when the killed-with indicator after the rewrite is `"GK"` and the
victim did not hold the flag named `"AV"`, the handler's effect on the host
is that of one `detonate` call at the victim's death position and rotation
from the event record, with the (rewritten) killer id as owner; the one
shock wave added to the log sits at the victim's death position. -/
theorem Event_default_detonates_at_victim (m : Libm R) (h : Host R)
    (data : PlayerDieEventData R)
    (hGK : (rewriteAttribution h data).flagKilledWith = "GK")
    (hAV : bz_getFlagName h data.flagHeldWhenKilled ≠ "AV") :
    ∃ (h' : Host R) (rest : List (Shot R)),
      detonate m h data.state.pos data.state.rotation (rewriteAttribution h data).killerID =
        some h' ∧
      Event m h (.playerDie data) = some (h', .playerDie (rewriteAttribution h data)) ∧
      h'.shots = h.shots ++
        (⟨h.nextGUID, "SW", data.state.pos, ⟨0, 0, 0⟩,
          bz_getPlayerTeam h (rewriteAttribution h data).killerID⟩ : Shot R) :: rest ∧
      (∀ s ∈ rest, s.shotType = "GK") ∧
      h'.freed = h.freed := by
  have hfl : bz_getFlagName h (rewriteAttribution h data).flagHeldWhenKilled ≠ "AV" := by
    rw [(rewriteAttribution_frame h data).2.1]; exact hAV
  obtain ⟨rest, hshots, hrest⟩ := detonated_shots_cons m h data.state.pos data.state.rotation
    (rewriteAttribution h data).killerID
  refine ⟨_, rest, detonate_eq m h _ _ _, ?_, hshots, hrest, (detonated_frame m h _ _ _).2.2.2.2.2.2⟩
  simp only [Event, hGK, hfl, if_true, if_false, detonate_eq,
    (rewriteAttribution_frame h data).2.2.2]

/-- Witness of C5: a death recorded as killed with `"GK"`, the victim
holding flag 0 (not `"AV"`), no tagged shot involved. -/
theorem Event_default_detonates_at_victim_witness :
    (rewriteAttribution (sampleHost ℚ 2) (sampleDeath ℚ "GK" 0)).flagKilledWith = "GK" ∧
    bz_getFlagName (sampleHost ℚ 2) (sampleDeath ℚ "GK" 0).flagHeldWhenKilled ≠ "AV" ∧
    ∃ (h' : Host ℚ) (rest : List (Shot ℚ)),
      detonate sampleLibm (sampleHost ℚ 2) (sampleDeath ℚ "GK" 0).state.pos
        (sampleDeath ℚ "GK" 0).state.rotation
        (rewriteAttribution (sampleHost ℚ 2) (sampleDeath ℚ "GK" 0)).killerID = some h' ∧
      Event sampleLibm (sampleHost ℚ 2) (.playerDie (sampleDeath ℚ "GK" 0)) =
        some (h', .playerDie (rewriteAttribution (sampleHost ℚ 2) (sampleDeath ℚ "GK" 0))) ∧
      h'.shots = (sampleHost ℚ 2).shots ++
        (⟨(sampleHost ℚ 2).nextGUID, "SW", (sampleDeath ℚ "GK" 0).state.pos, ⟨0, 0, 0⟩,
          bz_getPlayerTeam (sampleHost ℚ 2)
            (rewriteAttribution (sampleHost ℚ 2) (sampleDeath ℚ "GK" 0)).killerID⟩ :
            Shot ℚ) :: rest ∧
      (∀ s ∈ rest, s.shotType = "GK") ∧
      h'.freed = (sampleHost ℚ 2).freed :=
  ⟨by decide, by decide,
    Event_default_detonates_at_victim sampleLibm (sampleHost ℚ 2) (sampleDeath ℚ "GK" 0)
      (by decide) (by decide)⟩

/-- C6: when the causing shot lacks the `type` or the `owner` key or its
`type` is not `"GK"`, and the event's killed-with indicator is not `"GK"`,
the handler returns with the host unchanged (no spawn request, no metadata
write, no release) and the event record unchanged. -/
theorem Event_unrelated_death_is_noop (m : Libm R) (h : Host R) (data : PlayerDieEventData R)
    (hNoTag :
      ¬ (bz_shotHasMetaData h (bz_getShotGUID h data.killerID data.shotID) "type" = true ∧
        bz_shotHasMetaData h (bz_getShotGUID h data.killerID data.shotID) "owner" = true ∧
        bz_getShotMetaDataS h (bz_getShotGUID h data.killerID data.shotID) "type" = "GK"))
    (hNotGK : data.flagKilledWith ≠ "GK") :
    Event m h (.playerDie data) = some (h, .playerDie data) := by
  simp only [Event, rewriteAttribution_untagged h data hNoTag, hNotGK, if_false]

/-- Witness of C6: an untagged shot and a death not recorded as `"GK"`. -/
theorem Event_unrelated_death_is_noop_witness :
    (sampleDeath ℚ "L" 0).flagKilledWith ≠ "GK" ∧
    Event sampleLibm (sampleHost ℚ 12) (.playerDie (sampleDeath ℚ "L" 0)) =
      some (sampleHost ℚ 12, .playerDie (sampleDeath ℚ "L" 0)) :=
  ⟨by decide,
    Event_unrelated_death_is_noop sampleLibm (sampleHost ℚ 12) (sampleDeath ℚ "L" 0)
      (by decide) (by decide)⟩

/-- C10: in the Avenger branch (killed-with `"GK"` after the rewrite, victim
holding `"AV"`) the handler returns and `bz_freePlayerRecord` has been
called exactly once, with the result of the lookup, whether it is a record
or null; when it is null the rest of the host is unchanged: no spawn request
and no metadata write. -/
theorem Event_avenger_releases_once (m : Libm R) (h : Host R) (data : PlayerDieEventData R)
    (hGK : (rewriteAttribution h data).flagKilledWith = "GK")
    (hAV : bz_getFlagName h data.flagHeldWhenKilled = "AV") :
    ∃ h' : Host R,
      Event m h (.playerDie data) = some (h', .playerDie (rewriteAttribution h data)) ∧
      h'.freed = h.freed ++ [bz_getPlayerByIndex h (rewriteAttribution h data).killerID] ∧
      (bz_getPlayerByIndex h (rewriteAttribution h data).killerID = none →
        h' = bz_freePlayerRecord h none ∧ h'.shots = h.shots ∧ h'.shotMeta = h.shotMeta ∧
          h'.nextGUID = h.nextGUID) := by
  have hfl : bz_getFlagName h (rewriteAttribution h data).flagHeldWhenKilled = "AV" := by
    rw [(rewriteAttribution_frame h data).2.1]; exact hAV
  cases hr : bz_getPlayerByIndex h (rewriteAttribution h data).killerID with
  | none =>
    refine ⟨bz_freePlayerRecord h none, ?_, rfl, fun _ => ⟨rfl, rfl, rfl, rfl⟩⟩
    simp only [Event, hGK, hfl, hr, if_true]
  | some r =>
    refine ⟨bz_freePlayerRecord (detonated m h r.lastKnownState.pos r.lastKnownState.rotation
      (rewriteAttribution h data).playerID) (some r), ?_, ?_, fun hn => by cases hn⟩
    · simp only [Event, hGK, hfl, hr, if_true, detonate_eq]
    · show (detonated m h _ _ _).freed ++ [some r] = _
      rw [(detonated_frame m h _ _ _).2.2.2.2.2.2]

/-- Witness of C10: the victim held `"AV"` and the killer, player 0, has no
record. -/
theorem Event_avenger_releases_once_witness :
    bz_getPlayerByIndex (sampleHost ℚ 12)
      (rewriteAttribution (sampleHost ℚ 12) (sampleDeath ℚ "GK" 1)).killerID = none ∧
    ∃ h' : Host ℚ,
      Event sampleLibm (sampleHost ℚ 12) (.playerDie (sampleDeath ℚ "GK" 1)) =
        some (h', .playerDie (rewriteAttribution (sampleHost ℚ 12) (sampleDeath ℚ "GK" 1))) ∧
      h'.freed = (sampleHost ℚ 12).freed ++
        [bz_getPlayerByIndex (sampleHost ℚ 12)
          (rewriteAttribution (sampleHost ℚ 12) (sampleDeath ℚ "GK" 1)).killerID] ∧
      (bz_getPlayerByIndex (sampleHost ℚ 12)
          (rewriteAttribution (sampleHost ℚ 12) (sampleDeath ℚ "GK" 1)).killerID = none →
        h' = bz_freePlayerRecord (sampleHost ℚ 12) none ∧ h'.shots = (sampleHost ℚ 12).shots ∧
          h'.shotMeta = (sampleHost ℚ 12).shotMeta ∧ h'.nextGUID = (sampleHost ℚ 12).nextGUID) :=
  ⟨rfl,
    Event_avenger_releases_once sampleLibm (sampleHost ℚ 12) (sampleDeath ℚ "GK" 1)
      (by decide) (by decide)⟩

end HandlerClaims

end GruesomeKiller
